import Mathlib

/-!
Verification of the geographic data-join and choropleth pipeline of the
`chadpvo/chadvo-ds-website` repository.

The definitions below are a shallow embedding of the JavaScript source:

* `projects/map_viz/src/js/EconomicMap.js` (the main map script), and
* the class-based variant of the same logic shipped as an unnamed source
  file (`class EconomicMap`), embedded here under the `EMClass` namespace.

JavaScript numbers are modelled as rationals (`ℚ`); all the arithmetic the
claims exercise (min/max scans, linear interpolation, `Math.round`,
`toFixed(1)`) is exact on the values involved.  JavaScript objects are
modelled as association lists from field name to `JVal`, with `none`
standing for a missing property (`undefined`) and `JVal.null` for an
explicit `null`.
-/

set_option maxRecDepth 20000

namespace EconMap

/-- A JavaScript value as it occurs in the data files: `null`, a number, or
a string. -/
inductive JVal where
  | null : JVal
  | num : ℚ → JVal
  | str : String → JVal
deriving DecidableEq

/-- A JavaScript object: an association list from property name to value.
`List.lookup` gives first-binding-wins semantics; the operations below keep
keys unique, matching real JS objects. -/
abbrev JRec := List (String × JVal)

/-- First-match lookup of a string key in an association list. -/
def lookupKey {α : Type _} : List (String × α) → String → Option α
  | [], _ => none
  | p :: t, k => if p.1 = k then some p.2 else lookupKey t k

/-- Property read `obj.f`.  `none` models `undefined` (absent property). -/
def getF (r : JRec) (f : String) : Option JVal := lookupKey r f

/-- Property write `obj.f = v`: overwrite the binding in place if the key
exists, otherwise append a new binding (JS insertion-order semantics). -/
def setF (r : JRec) (f : String) (v : JVal) : JRec :=
  if r.any (fun p => decide (p.1 = f)) then r.map (fun p => if p.1 = f then (f, v) else p)
  else r ++ [(f, v)]

/-- JavaScript truthiness of a property value: `undefined`, `null`, `0` and
`""` are falsy; every other number or string is truthy. -/
def truthy : Option JVal → Bool
  | none => false
  | some .null => false
  | some (.num q) => q != 0
  | some (.str s) => s != ""

/-- Numeric content of a property for the arithmetic in the derived-rate
computation; the guarded fields are always numbers in the data files. -/
def numOf : Option JVal → ℚ
  | some (.num q) => q
  | _ => 0

/-- The `.filter(v => v !== null && v !== undefined)` step applied to a
metric value; the retained metric values are numbers in the data files. -/
def numValue : Option JVal → Option ℚ
  | some (.num q) => some q
  | _ => none

/-- JS `String(v)` for the values used as object keys and geo identifiers
(strings and integral numbers). -/
def jsString : JVal → String
  | .str s => s
  | .num q => if q.den = 1 then toString q.num else toString q
  | .null => "null"

/-- JS `s.padStart(w, c)`. -/
def padStart (s : String) (w : ℕ) (c : Char) : String :=
  String.mk (List.replicate (w - s.data.length) c ++ s.data)

/-- The geo-key normalisation idiom `String(x).padStart(width, '0')` used
throughout `EconomicMap.js` (e.g. line 381 for ZIPs with width 5, lines
1694-1697 for states with width 2 and counties with width 5). -/
def normalizeGeoKey (v : JVal) (width : ℕ) : String :=
  padStart (jsString v) width '0'

/-! ### Hexadecimal colors -/

/-- Value of a hexadecimal digit character, as consumed by JS
`parseInt(s, 16)`. -/
def hexDigitVal (c : Char) : Option ℕ :=
  if '0' ≤ c ∧ c ≤ '9' then some (c.toNat - '0'.toNat)
  else if 'a' ≤ c ∧ c ≤ 'f' then some (c.toNat - 'a'.toNat + 10)
  else if 'A' ≤ c ∧ c ≤ 'F' then some (c.toNat - 'A'.toNat + 10)
  else none

/-- Accumulating parse of a big-endian hex digit string, stopping at the
first non-digit, as `parseInt(s, 16)` does. -/
def parseHexAux : List Char → ℕ → ℕ
  | [], acc => acc
  | c :: cs, acc =>
    match hexDigitVal c with
    | some d => parseHexAux cs (acc * 16 + d)
    | none => acc

/-- JS `parseInt(s, 16)` on well-formed input. -/
def parseIntHex (s : String) : ℕ := parseHexAux s.data 0

/-- Lowercase hex digit character, as produced by JS
`Number.prototype.toString(16)`. -/
def hexChar (d : ℕ) : Char :=
  if d < 10 then Char.ofNat ('0'.toNat + d) else Char.ofNat ('a'.toNat + (d - 10))

/-- Little-endian base-16 digits of `n`, with explicit fuel so that the
recursion is structural (any fuel `≥ n` gives the digit list). -/
def hexLE : ℕ → ℕ → List ℕ
  | 0, _ => []
  | _ + 1, 0 => []
  | fuel + 1, n + 1 => ((n + 1) % 16) :: hexLE fuel ((n + 1) / 16)

/-- Little-endian base-16 digits of `n`. -/
def hexDigitsNat (n : ℕ) : List ℕ := hexLE n n

/-- JS `n.toString(16)` for a natural number. -/
def natToHex (n : ℕ) : String :=
  if n = 0 then "0" else String.mk (((hexDigitsNat n).map hexChar).reverse)

/-- JS `i.toString(16)` for a possibly negative integer. -/
def intToHex (i : ℤ) : String :=
  if i < 0 then String.mk ('-' :: (natToHex i.natAbs).data) else natToHex i.natAbs

/-- JS `s.slice(1)`. -/
def slice1 (s : String) : String := String.mk (s.data.drop 1)

/-- One channel interpolation `Math.round(a + factor * (b - a))` of
`interpolateColor` (EconomicMap.js lines 142-144). -/
def interpChannel (a b : ℕ) (factor : ℚ) : ℤ :=
  round ((a : ℚ) + factor * ((b : ℚ) - (a : ℚ)))

/-- The function `interpolateColor(color1, color2, factor)` (EconomicMap.js lines
133-146): parse both `#rrggbb` colors (`c1`/`c2`), extract the channels
(`r1 = (c1 >> 16) & 0xff` and so on, inlined below), round the
channel-wise linear interpolation, and format
`(1 << 24) + (r << 16) + (g << 8) + b` in hex, dropping the leading `1`. -/
def interpolateColor (color1 color2 : String) (factor : ℚ) : String :=
  String.mk ('#' :: (intToHex (16777216 +
    interpChannel ((parseIntHex (slice1 color1) >>> 16) &&& 255)
      ((parseIntHex (slice1 color2) >>> 16) &&& 255) factor * 65536 +
    interpChannel ((parseIntHex (slice1 color1) >>> 8) &&& 255)
      ((parseIntHex (slice1 color2) >>> 8) &&& 255) factor * 256 +
    interpChannel (parseIntHex (slice1 color1) &&& 255)
      (parseIntHex (slice1 color2) &&& 255) factor)).data.drop 1)

/-- The canonical lowercase `#rrggbb` string with the given channels; for
in-range channels this is exactly the string `interpolateColor` emits. -/
def canonColor (r g b : ℤ) : String :=
  String.mk ('#' :: (intToHex (16777216 + r * 65536 + g * 256 + b)).data.drop 1)

/-- The gradient and fill colors of the map (`colorSettings`,
EconomicMap.js lines 26-36). -/
structure ColorSettings where
  border : String
  selected : String
  dimmed : String
  choroLow : String
  choroHigh : String
deriving DecidableEq

def colorSettings : ColorSettings :=
  ⟨"#999999", "#627BC1", "#CCCCCC", "#eff3ff", "#08519c"⟩

/-- Ascending numeric sort `[...allValues].sort((a, b) => a - b)`. -/
def sortValues (allValues : List ℚ) : List ℚ := List.insertionSort (· ≤ ·) allValues

/-- The normalisation bounds the color mapper computes: first and last
element of the sorted value list (`sortedValues[0]`,
`sortedValues[sortedValues.length - 1]`). -/
def boundsOf (allValues : List ℚ) : ℚ × ℚ :=
  ((sortValues allValues).headD 0, (sortValues allValues).getLastD 0)

/-- The function `getColorForValue(value, metric, allValues)` (EconomicMap.js lines
1034-1043).  The `metric` parameter is unused by the source function. -/
def getColorForValue (cs : ColorSettings) (value : Option ℚ) (allValues : List ℚ) : String :=
  match value with
  | none => cs.dimmed
  | some v =>
    if allValues.length = 0 then cs.dimmed
    else
      let mn := (boundsOf allValues).1
      let mx := (boundsOf allValues).2
      if mx = mn then interpolateColor cs.choroLow cs.choroHigh (1 / 2)
      else interpolateColor cs.choroLow cs.choroHigh ((v - mn) / (mx - mn))

/-- Model of `parseFloat(x.toFixed(1))`: round to one decimal place (ties upward,
as `toFixed` does for the positive values that occur here). -/
def toFixed1 (q : ℚ) : ℚ := (round (q * 10) : ℚ) / 10

/-- First statement of the derived-rate pass of `loadEconomicData`
(EconomicMap.js lines 227-229): `vacancyRate` is computed only when the
field is `=== undefined` and both counts are truthy. -/
def deriveVacancy (item : JRec) : JRec :=
  if (getF item "vacancyRate").isNone && truthy (getF item "vacantUnits") &&
      truthy (getF item "totalHousingUnits") then
    setF item "vacancyRate"
      (.num (toFixed1 (numOf (getF item "vacantUnits") /
        numOf (getF item "totalHousingUnits") * 100)))
  else item

/-- Second statement of the derived-rate pass (EconomicMap.js lines
230-232), for `homeownershipRate`. -/
def deriveHomeownership (item : JRec) : JRec :=
  if (getF item "homeownershipRate").isNone && truthy (getF item "ownerOccupied") &&
      truthy (getF item "occupiedUnits") then
    setF item "homeownershipRate"
      (.num (toFixed1 (numOf (getF item "ownerOccupied") /
        numOf (getF item "occupiedUnits") * 100)))
  else item

/-- The derived-rate pass of `loadEconomicData` (EconomicMap.js lines
225-234) on one record: the two statements run in order. -/
def deriveRates (item : JRec) : JRec := deriveHomeownership (deriveVacancy item)

/-! ### The class-based variant (`class EconomicMap`, unnamed source file) -/

namespace EMClass

/-- The method `getColorForValue(value, allValues)` of the class-based variant (lines
253-262 of the class file).  Unlike the main script, the degenerate
`max === min` case returns the `dimmed` fill, not the gradient midpoint. -/
def getColorForValue (cs : ColorSettings) (value : Option ℚ) (allValues : List ℚ) : String :=
  match value with
  | none => cs.dimmed
  | some v =>
    if allValues.length = 0 then cs.dimmed
    else
      let mn := (boundsOf allValues).1
      let mx := (boundsOf allValues).2
      if mx = mn then cs.dimmed
      else interpolateColor cs.choroLow cs.choroHigh ((v - mn) / (mx - mn))

/-- First statement of the class-based variant's `calculateDerivedRates`
(line 163 of the class file): note there is no `=== undefined` guard, so a
baseline-supplied `vacancyRate` is recomputed whenever both counts are
truthy. -/
def deriveVacancy (item : JRec) : JRec :=
  if truthy (getF item "vacantUnits") && truthy (getF item "totalHousingUnits") then
    setF item "vacancyRate"
      (.num (toFixed1 (numOf (getF item "vacantUnits") /
        numOf (getF item "totalHousingUnits") * 100)))
  else item

/-- Second statement of the class-based variant's `calculateDerivedRates`
(line 164 of the class file), for `homeownershipRate`. -/
def deriveHomeownership (item : JRec) : JRec :=
  if truthy (getF item "ownerOccupied") && truthy (getF item "occupiedUnits") then
    setF item "homeownershipRate"
      (.num (toFixed1 (numOf (getF item "ownerOccupied") /
        numOf (getF item "occupiedUnits") * 100)))
  else item

/-- The method `calculateDerivedRates` of the class-based variant (lines 160-167 of
the class file) on one record. -/
def calculateDerivedRatesItem (item : JRec) : JRec :=
  deriveHomeownership (deriveVacancy item)

end EMClass

/-! ### Overlay snapshot selection (`loadGeoData`) -/

/-- JS `<` on strings: lexicographic comparison by code unit. -/
def strLtChars : List Char → List Char → Bool
  | [], [] => false
  | [], _ :: _ => true
  | _ :: _, [] => false
  | a :: as, b :: bs =>
    if a.toNat < b.toNat then true
    else if b.toNat < a.toNat then false
    else strLtChars as bs

/-- JS string comparison `a < b`. -/
def jsStrLt (a b : String) : Bool := strLtChars a.data b.data

/-- The latest-period scan (EconomicMap.js lines 396-402):
`if (row.PERIOD_END && (!latestPeriod || row.PERIOD_END > latestPeriod))`.
The period fields are strings in the data files. -/
def latestPeriod (rows : List JRec) : Option String :=
  rows.foldl (fun latest row =>
    match getF row "PERIOD_END" with
    | some (.str p) =>
      if (p != "") && (match latest with | none => true | some a => jsStrLt a p) then some p
      else latest
    | _ => latest) none

/-- JS strict equality `row.PERIOD_END === latestPeriod` where the right
side is a string or `null`. -/
def strictEqPeriod : Option JVal → Option String → Bool
  | some (.str p), some q => p == q
  | some .null, none => true
  | _, _ => false

/-- The row filter of the overlay loaders (EconomicMap.js lines 405-411,
433-439, 461-467): keep a row iff its period strictly equals the latest
period, its property type is `'All Residential'`, and its key field is
truthy. -/
def retainRow (lp : Option String) (keyField : String) (row : JRec) : Bool :=
  strictEqPeriod (getF row "PERIOD_END") lp &&
  decide (getF row "PROPERTY_TYPE" = some (.str "All Residential")) &&
  truthy (getF row keyField)

/-- Keyed insertion `tbl[k] = row` into an object modelled as an
association list: overwrite in place or append. -/
def insertKeyed (tbl : List (String × JRec)) (k : String) (row : JRec) : List (String × JRec) :=
  if tbl.any (fun p => decide (p.1 = k)) then tbl.map (fun p => if p.1 = k then (k, row) else p)
  else tbl ++ [(k, row)]

/-- The overlay table construction of the Redfin loaders: scan for the
latest period, then write every retained row into the table under
`String(row[keyField])`. -/
def buildOverlayTable (rows : List JRec) (keyField : String) : List (String × JRec) :=
  rows.foldl (fun tbl row =>
    if retainRow (latestPeriod rows) keyField row then
      insertKeyed tbl (jsString ((getF row keyField).getD .null)) row
    else tbl) []

/-- Selection as the specification words it (for comparison with
`retainRow`): the most recent period is taken over the rows of the
category of interest only. -/
def specRetainRow (rows : List JRec) (keyField : String) (row : JRec) : Bool :=
  strictEqPeriod (getF row "PERIOD_END")
    (latestPeriod (rows.filter
      (fun r => decide (getF r "PROPERTY_TYPE" = some (.str "All Residential"))))) &&
  decide (getF row "PROPERTY_TYPE" = some (.str "All Residential")) &&
  truthy (getF row keyField)

/-! ### Merging the overlay tables into the economic data
(`mergeRedfinIntoEconomicData`, EconomicMap.js lines 256-315) -/

/-- The truthy-fallback chains selecting the join key of a region record,
e.g. `state.stateCode || state.STATE_CODE`: first truthy field value, or
`none` when every field in the chain is falsy (in which case the merge
guard `if (stateCode && ...)` skips the record). -/
def selectKeyVal (fields : List String) (r : JRec) : Option JVal :=
  match fields with
  | [] => none
  | f :: fs => if truthy (getF r f) then getF r f else selectKeyVal fs r

/-- Row copy `Object.keys(redfinRow).forEach(key => record[key] = redfinRow[key])`:
copy every property of the overlay row into the record, overwriting
same-named properties. -/
def copyFields (r : JRec) (row : JRec) : JRec :=
  row.foldl (fun acc p => setF acc p.1 p.2) r

/-- The per-record merge step: select the join key, look it up in the
overlay table, and copy the matched row's properties into the record;
records with no truthy key or no matching overlay row are left unchanged. -/
def mergeRec (fields : List String) (tbl : List (String × JRec)) (r : JRec) : JRec :=
  match selectKeyVal fields r with
  | none => r
  | some v =>
    match lookupKey tbl (jsString v) with
    | none => r
    | some row => copyFields r row

/-- One level of `mergeRedfinIntoEconomicData`: the merge iterates over
the existing region records (never over the overlay rows), updating each
in place. -/
def mergeLevel (fields : List String) (ds : List (String × JRec))
    (tbl : List (String × JRec)) : List (String × JRec) :=
  ds.map (fun kr => (kr.1, mergeRec fields tbl kr.2))

/-- Key-fallback chain for states: `state.stateCode || state.STATE_CODE`. -/
def stateKeyFields : List String := ["stateCode", "STATE_CODE"]

/-- Key-fallback chain for counties:
`county.fips || county.FIPS || county.geoid || county.GEOID`. -/
def countyKeyFields : List String := ["fips", "FIPS", "geoid", "GEOID"]

/-- Key-fallback chain for CBSAs:
`cbsa.cbsaCode || cbsa.CBSA_CODE || cbsa.geoid || cbsa.GEOID`. -/
def cbsaKeyFields : List String := ["cbsaCode", "CBSA_CODE", "geoid", "GEOID"]

/-- Field value of the region record stored under key `k`. -/
def regionField (ds : List (String × JRec)) (k f : String) : Option JVal :=
  (lookupKey ds k).bind (fun r => getF r f)

/-! ### Choropleth assembly over a dataset (`applyChoropleth`) -/

/-- Metric extraction `Object.values(dataset).map(d => d[metric]).filter(v => v !== null &&
v !== undefined)` for a numeric metric. -/
def metricValues (ds : List (String × JRec)) (metric : String) : List ℚ :=
  ds.filterMap (fun kr => numValue (getF kr.2 metric))

/-- The color assigned to region `k` by `applyChoropleth`:
`getColorForValue(data ? data[metric] : null, metric, allValues)`. -/
def regionColor (cs : ColorSettings) (ds : List (String × JRec)) (metric k : String) : String :=
  getColorForValue cs ((lookupKey ds k).bind (fun r => numValue (getF r metric)))
    (metricValues ds metric)

/-- The end-to-end baseline state dataset of the specification's scenario:
`{"06": {totalPopulation: 39000000}, "48": {totalPopulation: 30000000}}`. -/
def stateDataEx : List (String × JRec) :=
  [("06", [("totalPopulation", .num 39000000)]),
   ("48", [("totalPopulation", .num 30000000)])]

/-! ### Data-loading control flow (`map.on('load')`, `loadEconomicData`,
`loadGeoData`) -/

/-- Which fetches succeed in a session: the boundary-geometry fetches of
`loadGeoData` (`d3.json` of the two us-atlas files and the CBSA asset),
the baseline economic fetches of `loadEconomicData`, and the four Redfin
overlay fetches. -/
structure FetchEnv where
  geoOk : Bool
  econOk : Bool
  zipOk : Bool
  stateOk : Bool
  countyOk : Bool
  cbsaOk : Bool
deriving DecidableEq

/-- A JS `try { body } catch (e) { handler }` on promise-based control
flow: `Except.error` models a rejected promise / thrown exception. -/
def jsTry (body : Except String Unit) (handler : String → Except String Unit) :
    Except String Unit :=
  match body with
  | .ok a => .ok a
  | .error e => handler e

/-- Control flow of `loadEconomicData` (lines 193-254): the whole body is
wrapped in `try`/`catch`, and the `catch` only logs and edits the overlay
DOM node — it does not rethrow. -/
def loadEconomicDataFlow (env : FetchEnv) : Except String Unit :=
  jsTry (if env.econOk then .ok () else .error "economic data fetch failed")
    (fun _ => .ok ())

/-- Control flow of `loadGeoData` (lines 360-490): the boundary fetches
run unguarded inside the outer `try`; each Redfin overlay fetch has its
own inner `try`/`catch` that only warns; the outer `catch` logs, edits the
DOM, and then `return Promise.reject(error)` — it rethrows. -/
def loadGeoDataFlow (env : FetchEnv) : Except String Unit :=
  jsTry
    (do
      if env.geoOk then pure () else throw "geo boundary fetch failed"
      jsTry (if env.zipOk then pure () else throw "redfin zip fetch failed") (fun _ => pure ())
      jsTry (if env.stateOk then pure () else throw "redfin state fetch failed") (fun _ => pure ())
      jsTry (if env.countyOk then pure () else throw "redfin county fetch failed") (fun _ => pure ())
      jsTry (if env.cbsaOk then pure () else throw "redfin cbsa fetch failed") (fun _ => pure ()))
    (fun e => .error e)

/-- Control flow of the `map.on('load', async () => ...)` handler (lines
1546-1576): it awaits `loadEconomicData` and `loadGeoData` with no
`try`/`catch` of its own, and no caller handles the handler's promise, so
an `Except.error` here is an unhandled promise rejection. -/
def onMapLoadFlow (env : FetchEnv) : Except String Unit := do
  loadEconomicDataFlow env
  loadGeoDataFlow env

/-! ## Lemmas about the record operations -/

attribute [local semireducible] Rat.add Rat.sub Rat.mul Rat.inv

lemma lookupKey_nil {a : Type _} (k : String) : lookupKey ([] : List (String × a)) k = none := rfl

lemma lookupKey_cons {a : Type _} (p : String × a) (t : List (String × a)) (k : String) :
    lookupKey (p :: t) k = if p.1 = k then some p.2 else lookupKey t k := rfl

lemma lookupKey_eq_none_of_not_mem {a : Type _} {l : List (String × a)} {k : String}
    (h : k ∉ l.map Prod.fst) : lookupKey l k = none := by
  induction l with
  | nil => rfl
  | cons p t ih =>
    simp only [List.map_cons, List.mem_cons, not_or] at h
    rw [lookupKey_cons, if_neg (fun hh => h.1 hh.symm), ih h.2]

lemma lookupKey_append {a : Type _} (l1 l2 : List (String × a)) (k : String) :
    lookupKey (l1 ++ l2) k = (lookupKey l1 k).or (lookupKey l2 k) := by
  induction l1 with
  | nil => rfl
  | cons p t ih =>
    by_cases hp : p.1 = k
    · simp [lookupKey_cons, hp, Option.or]
    · simp [lookupKey_cons, hp, ih]

lemma any_eq_false_not_mem {a : Type _} {l : List (String × a)} {k : String}
    (h : (l.any (fun p => decide (p.1 = k))) = false) : k ∉ l.map Prod.fst := by
  intro hmem
  rcases List.mem_map.mp hmem with ⟨p, hp, hfst⟩
  have := List.any_eq_false.mp h p hp
  simp [hfst] at this

lemma lookupKey_map_overwrite {a : Type _} (l : List (String × a)) (k k' : String) (v : a)
    (h : k' ≠ k) :
    lookupKey (l.map (fun p => if p.1 = k then (k, v) else p)) k' = lookupKey l k' := by
  induction l with
  | nil => rfl
  | cons p t ih =>
    by_cases hp : p.1 = k
    · simp only [List.map_cons, if_pos hp, lookupKey_cons]
      rw [if_neg (Ne.symm h), if_neg (hp ▸ (Ne.symm h) : ¬p.1 = k'), ih]
    · simp only [List.map_cons, if_neg hp, lookupKey_cons]
      by_cases hk : p.1 = k' <;> simp [hk, ih]

lemma lookupKey_map_overwrite_self {a : Type _} (l : List (String × a)) (k : String) (v : a)
    (hany : (l.any (fun p => decide (p.1 = k))) = true) :
    lookupKey (l.map (fun p => if p.1 = k then (k, v) else p)) k = some v := by
  induction l with
  | nil => simp at hany
  | cons p t ih =>
    by_cases hp : p.1 = k
    · simp [List.map_cons, if_pos hp, lookupKey_cons]
    · have ht : (t.any (fun p => decide (p.1 = k))) = true := by
        simpa [List.any_cons, hp] using hany
      simp only [List.map_cons, if_neg hp, lookupKey_cons, if_neg hp, ih ht]

lemma getF_setF_self (r : JRec) (f : String) (v : JVal) : getF (setF r f v) f = some v := by
  unfold getF setF
  by_cases hany : (r.any (fun p => decide (p.1 = f))) = true
  · rw [if_pos hany, lookupKey_map_overwrite_self r f v hany]
  · rw [if_neg hany, lookupKey_append,
      lookupKey_eq_none_of_not_mem (any_eq_false_not_mem (Bool.eq_false_iff.mpr hany ▸ rfl))]
    simp [lookupKey_cons, Option.or]

lemma getF_setF_ne (r : JRec) (f f' : String) (v : JVal) (h : f' ≠ f) :
    getF (setF r f v) f' = getF r f' := by
  unfold getF setF
  by_cases hany : (r.any (fun p => decide (p.1 = f))) = true
  · rw [if_pos hany, lookupKey_map_overwrite r f f' v h]
  · rw [if_neg hany, lookupKey_append]
    have h1 : lookupKey ([(f, v)] : JRec) f' = none := by
      rw [lookupKey_cons, if_neg (fun hh : (f, v).1 = f' => h hh.symm)]
      rfl
    rw [h1]
    cases lookupKey r f' <;> rfl

lemma getF_copyFields (row : JRec) : ∀ (r : JRec), (row.map Prod.fst).Nodup →
    ∀ f, getF (copyFields r row) f = (lookupKey row f).or (getF r f) := by
  induction row with
  | nil => intro r _ f; cases hg : getF r f <;> simp [copyFields, lookupKey_nil, Option.or, hg]
  | cons p t ih =>
    intro r hnd f
    rcases p with ⟨f0, v0⟩
    simp only [List.map_cons, List.nodup_cons] at hnd
    have hstep : copyFields r ((f0, v0) :: t) = copyFields (setF r f0 v0) t := rfl
    rw [hstep, ih (setF r f0 v0) hnd.2 f]
    by_cases hf : f = f0
    · subst hf
      rw [lookupKey_eq_none_of_not_mem hnd.1, getF_setF_self]
      simp [lookupKey_cons, Option.or]
    · rw [getF_setF_ne r f0 f v0 hf, lookupKey_cons, if_neg (fun hh => hf hh.symm)]

/-! ## Sorted-bounds lemmas -/

lemma sortValues_perm (l : List ℚ) : (sortValues l).Perm l := List.perm_insertionSort _ l

lemma sortValues_ne_nil {l : List ℚ} (h : l ≠ []) : sortValues l ≠ [] := by
  intro hs
  apply h
  have hlen := (sortValues_perm l).length_eq
  rw [hs] at hlen
  exact List.length_eq_zero.mp hlen.symm

lemma boundsOf_const {l : List ℚ} {c : ℚ} (hne : l ≠ []) (hall : ∀ x ∈ l, x = c) :
    boundsOf l = (c, c) := by
  have hs := sortValues_ne_nil hne
  rcases hx : sortValues l with _ | ⟨a, t⟩
  · exact absurd hx hs
  · have hmem : ∀ x ∈ sortValues l, x = c := fun x hx' =>
      hall x ((sortValues_perm l).mem_iff.mp hx')
    have ha : a = c := hmem a (by rw [hx]; exact List.mem_cons_self a t)
    have hlast : (a :: t).getLast (List.cons_ne_nil a t) = c := by
      apply hmem
      rw [hx]
      exact List.getLast_mem _
    have h2 : (a :: t).getLastD 0 = c := by
      rw [List.getLastD_eq_getLast?, List.getLast?_eq_getLast _ (List.cons_ne_nil a t), hlast]
      rfl
    unfold boundsOf
    rw [hx, List.headD_cons, h2, ha]

lemma getColorForValue_degenerate (cs : ColorSettings) (v : ℚ) {l : List ℚ} {c : ℚ}
    (hne : l ≠ []) (hall : ∀ x ∈ l, x = c) :
    getColorForValue cs (some v) l = interpolateColor cs.choroLow cs.choroHigh (1 / 2) := by
  simp only [getColorForValue, boundsOf_const hne hall]
  rw [if_neg (fun h0 => hne (List.length_eq_zero.mp h0))]
  simp

lemma emclass_getColorForValue_degenerate (cs : ColorSettings) (v : ℚ) {l : List ℚ} {c : ℚ}
    (hne : l ≠ []) (hall : ∀ x ∈ l, x = c) :
    EMClass.getColorForValue cs (some v) l = cs.dimmed := by
  simp only [EMClass.getColorForValue, boundsOf_const hne hall]
  rw [if_neg (fun h0 => hne (List.length_eq_zero.mp h0))]
  simp

/-! ## Claim C1 -/

/-- C1, amended: when the normalisation bounds are degenerate because every
value of the active metric is the same, the main map script's
`getColorForValue` returns the low-to-high gradient interpolated at
`t = 0.5`; the class-based variant instead returns the configured dimmed
fill for such regions. -/
theorem c1_degenerate_midpoint_color (cs : ColorSettings) (v c : ℚ) (l : List ℚ)
    (hne : l ≠ []) (hall : ∀ x ∈ l, x = c) :
    getColorForValue cs (some v) l = interpolateColor cs.choroLow cs.choroHigh (1 / 2) ∧
    EMClass.getColorForValue cs (some v) l = cs.dimmed :=
  ⟨getColorForValue_degenerate cs v hne hall,
   emclass_getColorForValue_degenerate cs v hne hall⟩

/-- C1 witness: the degenerate single-value distribution `[5, 5]`. -/
theorem c1_degenerate_midpoint_color_witness :
    getColorForValue colorSettings (some 5) [5, 5] =
      interpolateColor colorSettings.choroLow colorSettings.choroHigh (1 / 2) ∧
    EMClass.getColorForValue colorSettings (some 5) [5, 5] = colorSettings.dimmed :=
  c1_degenerate_midpoint_color colorSettings 5 5 [5, 5] (by decide) (by decide)

/-- C1 counterexample: on the class-based variant of the color mapper, a
degenerate distribution does not yield the midpoint-interpolated color
(the midpoint of the default gradient is `#7ca2ce`, but the variant
returns the dimmed fill `#CCCCCC`). -/
theorem c1_class_variant_not_midpoint :
    EMClass.getColorForValue colorSettings (some 5) [5, 5] ≠
      interpolateColor colorSettings.choroLow colorSettings.choroHigh (1 / 2) := by decide

/-! ## Claim C2 -/

/-- C2, amended: in the main map script the derived rates are guarded by
`=== undefined`, so a baseline-supplied `vacancyRate` or
`homeownershipRate` is kept unchanged by the derived-rate pass; the
class-based variant's `calculateDerivedRates` lacks that guard (see the
counterexample). -/
theorem c2_baseline_rate_kept (item : JRec) (w u : JVal) :
    (getF item "vacancyRate" = some w → getF (deriveRates item) "vacancyRate" = some w) ∧
    (getF item "homeownershipRate" = some u →
      getF (deriveRates item) "homeownershipRate" = some u) := by
  constructor
  · intro hv
    have h1 : deriveVacancy item = item := by
      unfold deriveVacancy
      rw [if_neg]
      simp [hv]
    unfold deriveRates
    rw [h1]
    unfold deriveHomeownership
    by_cases hg : ((getF item "homeownershipRate").isNone && truthy (getF item "ownerOccupied") &&
        truthy (getF item "occupiedUnits")) = true
    · rw [if_pos hg, getF_setF_ne _ _ _ _ (by decide)]
      exact hv
    · rw [if_neg hg]
      exact hv
  · intro hh
    have h1 : getF (deriveVacancy item) "homeownershipRate" = some u := by
      unfold deriveVacancy
      by_cases hg : ((getF item "vacancyRate").isNone && truthy (getF item "vacantUnits") &&
          truthy (getF item "totalHousingUnits")) = true
      · rw [if_pos hg, getF_setF_ne _ _ _ _ (by decide)]
        exact hh
      · rw [if_neg hg]
        exact hh
    unfold deriveRates deriveHomeownership
    rw [h1]
    simp only [Option.isNone_some, Bool.false_and, Bool.false_eq_true, if_false]
    exact h1

/-- A baseline record that already supplies `vacancyRate` (7.0) together
with counts that would derive a different rate (10.0). -/
def baselineRateSample : JRec :=
  [("vacancyRate", .num 7), ("vacantUnits", .num 10), ("totalHousingUnits", .num 100)]

/-- C2 witness: the baseline-supplied 7.0 survives the main script's
derived-rate pass. -/
theorem c2_baseline_rate_kept_witness :
    getF (deriveRates baselineRateSample) "vacancyRate" = some (.num 7) :=
  (c2_baseline_rate_kept baselineRateSample (.num 7) (.num 7)).1 (by decide)

/-- C2 counterexample: the class-based variant overwrites the
baseline-supplied `vacancyRate` 7.0 with the derived 10.0
(`10 / 100 * 100`), so the claim "never overwritten" fails on it. -/
theorem c2_class_variant_overwrites :
    getF baselineRateSample "vacancyRate" = some (.num 7) ∧
    getF (EMClass.calculateDerivedRatesItem baselineRateSample) "vacancyRate" = some (.num 10) ∧
    getF (EMClass.calculateDerivedRatesItem baselineRateSample) "vacancyRate" ≠
      some (.num 7) := by decide

/-! ## Claim C10 -/

/-- C10: in both implementations the derived-rate computation is guarded
by truthiness of both counts, so whenever either count is `0`, `null` or
absent, the corresponding rate field is left exactly as it was (in
particular an absent field stays absent, and no division by zero is ever
performed). -/
theorem c10_falsy_counts_guard (item : JRec) :
    ((truthy (getF item "vacantUnits") = false ∨
        truthy (getF item "totalHousingUnits") = false) →
      getF (deriveRates item) "vacancyRate" = getF item "vacancyRate" ∧
      getF (EMClass.calculateDerivedRatesItem item) "vacancyRate" =
        getF item "vacancyRate") ∧
    ((truthy (getF item "ownerOccupied") = false ∨
        truthy (getF item "occupiedUnits") = false) →
      getF (deriveRates item) "homeownershipRate" = getF item "homeownershipRate" ∧
      getF (EMClass.calculateDerivedRatesItem item) "homeownershipRate" =
        getF item "homeownershipRate") := by
  constructor
  · intro hf
    constructor
    · have h1 : deriveVacancy item = item := by
        unfold deriveVacancy
        rw [if_neg]
        rcases hf with hf | hf <;> simp [hf]
      unfold deriveRates
      rw [h1]
      unfold deriveHomeownership
      by_cases hg : ((getF item "homeownershipRate").isNone && truthy (getF item "ownerOccupied") &&
          truthy (getF item "occupiedUnits")) = true
      · rw [if_pos hg, getF_setF_ne _ _ _ _ (by decide)]
      · rw [if_neg hg]
    · have h1 : EMClass.deriveVacancy item = item := by
        unfold EMClass.deriveVacancy
        rw [if_neg]
        rcases hf with hf | hf <;> simp [hf]
      unfold EMClass.calculateDerivedRatesItem
      rw [h1]
      unfold EMClass.deriveHomeownership
      by_cases hg : (truthy (getF item "ownerOccupied") &&
          truthy (getF item "occupiedUnits")) = true
      · rw [if_pos hg, getF_setF_ne _ _ _ _ (by decide)]
      · rw [if_neg hg]
  · intro hf
    constructor
    · have e1 : getF (deriveVacancy item) "ownerOccupied" = getF item "ownerOccupied" := by
        unfold deriveVacancy
        by_cases hg : ((getF item "vacancyRate").isNone && truthy (getF item "vacantUnits") &&
            truthy (getF item "totalHousingUnits")) = true
        · rw [if_pos hg, getF_setF_ne _ _ _ _ (by decide)]
        · rw [if_neg hg]
      have e2 : getF (deriveVacancy item) "occupiedUnits" = getF item "occupiedUnits" := by
        unfold deriveVacancy
        by_cases hg : ((getF item "vacancyRate").isNone && truthy (getF item "vacantUnits") &&
            truthy (getF item "totalHousingUnits")) = true
        · rw [if_pos hg, getF_setF_ne _ _ _ _ (by decide)]
        · rw [if_neg hg]
      have e3 : getF (deriveVacancy item) "homeownershipRate" =
          getF item "homeownershipRate" := by
        unfold deriveVacancy
        by_cases hg : ((getF item "vacancyRate").isNone && truthy (getF item "vacantUnits") &&
            truthy (getF item "totalHousingUnits")) = true
        · rw [if_pos hg, getF_setF_ne _ _ _ _ (by decide)]
        · rw [if_neg hg]
      unfold deriveRates deriveHomeownership
      rw [e1, e2, e3]
      rw [if_neg]
      · exact e3
      · rcases hf with hf | hf <;> simp [hf]
    · have e1 : getF (EMClass.deriveVacancy item) "ownerOccupied" =
          getF item "ownerOccupied" := by
        unfold EMClass.deriveVacancy
        by_cases hg : (truthy (getF item "vacantUnits") &&
            truthy (getF item "totalHousingUnits")) = true
        · rw [if_pos hg, getF_setF_ne _ _ _ _ (by decide)]
        · rw [if_neg hg]
      have e2 : getF (EMClass.deriveVacancy item) "occupiedUnits" =
          getF item "occupiedUnits" := by
        unfold EMClass.deriveVacancy
        by_cases hg : (truthy (getF item "vacantUnits") &&
            truthy (getF item "totalHousingUnits")) = true
        · rw [if_pos hg, getF_setF_ne _ _ _ _ (by decide)]
        · rw [if_neg hg]
      have e3 : getF (EMClass.deriveVacancy item) "homeownershipRate" =
          getF item "homeownershipRate" := by
        unfold EMClass.deriveVacancy
        by_cases hg : (truthy (getF item "vacantUnits") &&
            truthy (getF item "totalHousingUnits")) = true
        · rw [if_pos hg, getF_setF_ne _ _ _ _ (by decide)]
        · rw [if_neg hg]
      unfold EMClass.calculateDerivedRatesItem EMClass.deriveHomeownership
      rw [e1, e2]
      rw [if_neg]
      · exact e3
      · rcases hf with hf | hf <;> simp [hf]

/-- A record with zero vacant units: the vacancy-rate guard must not fire. -/
def zeroVacantSample : JRec := [("vacantUnits", .num 0), ("totalHousingUnits", .num 100)]

/-- C10 witness: a region with zero vacant units keeps `vacancyRate`
absent in both implementations. -/
theorem c10_falsy_counts_guard_witness :
    getF (deriveRates zeroVacantSample) "vacancyRate" = getF zeroVacantSample "vacancyRate" ∧
    getF (EMClass.calculateDerivedRatesItem zeroVacantSample) "vacancyRate" =
      getF zeroVacantSample "vacancyRate" :=
  (c10_falsy_counts_guard zeroVacantSample).1 (Or.inl (by decide))

/-! ## Merge lemmas and claims C5, C6 -/

lemma lookupKey_mem {a : Type _} {tbl : List (String × a)} {k : String} {row : a}
    (h : lookupKey tbl k = some row) : (k, row) ∈ tbl := by
  induction tbl with
  | nil => simp [lookupKey_nil] at h
  | cons p t ih =>
    rw [lookupKey_cons] at h
    by_cases hp : p.1 = k
    · rw [if_pos hp] at h
      injection h with h2
      have hp2 : p = (k, row) := by
        cases p
        simp only at hp h2
        rw [hp, h2]
      rw [hp2]
      exact List.mem_cons_self _ _
    · rw [if_neg hp] at h
      exact List.mem_cons_of_mem _ (ih h)

/-- C5: merging an overlay table into a level's region records preserves
the region-key list exactly (the merge maps over the existing records and
never inserts or removes one), and a record whose join key matches no
overlay entry is returned entirely unchanged. -/
theorem c5_merge_preserves_regions (fields : List String) (ds tbl : List (String × JRec)) :
    (mergeLevel fields ds tbl).map Prod.fst = ds.map Prod.fst ∧
    ∀ kr ∈ ds, (∀ v, selectKeyVal fields kr.2 = some v → lookupKey tbl (jsString v) = none) →
      mergeRec fields tbl kr.2 = kr.2 := by
  constructor
  · simp [mergeLevel, List.map_map, Function.comp]
  · intro kr _ h
    cases hsel : selectKeyVal fields kr.2 with
    | none => simp only [mergeRec, hsel]
    | some v => simp only [mergeRec, hsel, h v hsel]

/-- A Redfin state overlay row as stored in `redfinStateData`. -/
def redfinRowSample : JRec :=
  [("STATE_CODE", .str "CA"), ("PERIOD_END", .str "2025-06-01"),
   ("PROPERTY_TYPE", .str "All Residential"), ("MEDIAN_SALE_PRICE", .num 800000)]

/-- A one-row overlay table keyed by the row's own `STATE_CODE`. -/
def overlayTableSample : List (String × JRec) := [("CA", redfinRowSample)]

/-- A region record whose `stateCode` matches no overlay entry. -/
def unjoinableSample : JRec := [("stateCode", .str "ZZ"), ("totalPopulation", .num 1000)]

/-- C5 witness: an unjoinable record leaves the key list and the record
itself untouched. -/
theorem c5_merge_preserves_regions_witness :
    (mergeLevel stateKeyFields [("99", unjoinableSample)] overlayTableSample).map Prod.fst =
      [("99", unjoinableSample)].map Prod.fst ∧
    mergeRec stateKeyFields overlayTableSample unjoinableSample = unjoinableSample :=
  ⟨(c5_merge_preserves_regions stateKeyFields [("99", unjoinableSample)] overlayTableSample).1,
   (c5_merge_preserves_regions stateKeyFields [("99", unjoinableSample)] overlayTableSample).2
     ("99", unjoinableSample) (by decide) (by decide)⟩

lemma mergeRec_of_selectKeyVal_none {fields : List String} {tbl : List (String × JRec)}
    {r : JRec} (h : selectKeyVal fields r = none) : mergeRec fields tbl r = r := by
  unfold mergeRec
  rw [h]

lemma mergeRec_of_lookup_none {fields : List String} {tbl : List (String × JRec)}
    {r : JRec} {v : JVal} (h : selectKeyVal fields r = some v)
    (hl : lookupKey tbl (jsString v) = none) : mergeRec fields tbl r = r := by
  simp only [mergeRec, h, hl]

lemma mergeRec_of_lookup_some {fields : List String} {tbl : List (String × JRec)}
    {r : JRec} {v : JVal} {row : JRec} (h : selectKeyVal fields r = some v)
    (hl : lookupKey tbl (jsString v) = some row) :
    mergeRec fields tbl r = copyFields r row := by
  simp only [mergeRec, h, hl]

lemma mergeRec_idem (fields : List String) (tbl : List (String × JRec)) (r : JRec)
    (hnd : ∀ p ∈ tbl, ((p.2 : JRec).map Prod.fst).Nodup)
    (hk : selectKeyVal fields (mergeRec fields tbl r) = selectKeyVal fields r) :
    ∀ f, getF (mergeRec fields tbl (mergeRec fields tbl r)) f =
      getF (mergeRec fields tbl r) f := by
  intro f
  cases hsel : selectKeyVal fields r with
  | none =>
    have h1 : mergeRec fields tbl r = r := mergeRec_of_selectKeyVal_none hsel
    rw [h1, h1]
  | some v =>
    cases hlk : lookupKey tbl (jsString v) with
    | none =>
      have h1 : mergeRec fields tbl r = r := mergeRec_of_lookup_none hsel hlk
      rw [h1, h1]
    | some row =>
      have h1 : mergeRec fields tbl r = copyFields r row := mergeRec_of_lookup_some hsel hlk
      have hk' : selectKeyVal fields (copyFields r row) = some v := by
        rw [← h1, hk, hsel]
      have h2 : mergeRec fields tbl (copyFields r row) =
          copyFields (copyFields r row) row := mergeRec_of_lookup_some hk' hlk
      rw [h1, h2]
      have hrow : (row.map Prod.fst).Nodup := hnd (jsString v, row) (lookupKey_mem hlk)
      rw [getF_copyFields row (copyFields r row) hrow f, getF_copyFields row r hrow f]
      cases lookupKey row f <;> rfl

lemma lookupKey_mergeLevel (fields : List String) (tbl : List (String × JRec))
    (ds : List (String × JRec)) (k : String) :
    lookupKey (mergeLevel fields ds tbl) k = (lookupKey ds k).map (mergeRec fields tbl) := by
  induction ds with
  | nil => rfl
  | cons kr t ih =>
    by_cases hk : kr.1 = k
    · simp [mergeLevel, List.map_cons, lookupKey_cons, hk]
    · simp only [mergeLevel, List.map_cons, lookupKey_cons] at *
      rw [if_neg hk, if_neg hk, ih]

/-- C6: merging the same overlay table twice yields exactly the same field
values on every region record as merging it once, provided overlay rows
have no duplicate property names and copying a matched row does not change
the record's join key (both hold for the Redfin tables, whose rows are
stored under their own key field). -/
theorem c6_merge_idempotent (fields : List String) (ds tbl : List (String × JRec))
    (hnd : ∀ p ∈ tbl, ((p.2 : JRec).map Prod.fst).Nodup)
    (hk : ∀ kr ∈ ds, selectKeyVal fields (mergeRec fields tbl kr.2) =
      selectKeyVal fields kr.2) :
    ∀ k f, regionField (mergeLevel fields (mergeLevel fields ds tbl) tbl) k f =
      regionField (mergeLevel fields ds tbl) k f := by
  intro k f
  unfold regionField
  rw [lookupKey_mergeLevel, lookupKey_mergeLevel]
  cases hds : lookupKey ds k with
  | none => rfl
  | some r =>
    have hmem : (k, r) ∈ ds := lookupKey_mem hds
    show getF (mergeRec fields tbl (mergeRec fields tbl r)) f = getF (mergeRec fields tbl r) f
    exact mergeRec_idem fields tbl r hnd (hk (k, r) hmem) f

/-- A baseline state record joined by its `stateCode` cross-reference. -/
def stateRecSample : JRec := [("stateCode", .str "CA"), ("totalPopulation", .num 39000000)]

/-- C6 witness: merging the sample overlay twice equals merging it once on
the merged sale-price field of region `06`. -/
theorem c6_merge_idempotent_witness :
    regionField (mergeLevel stateKeyFields
        (mergeLevel stateKeyFields [("06", stateRecSample)] overlayTableSample)
        overlayTableSample) "06" "MEDIAN_SALE_PRICE" =
      regionField (mergeLevel stateKeyFields [("06", stateRecSample)] overlayTableSample)
        "06" "MEDIAN_SALE_PRICE" :=
  c6_merge_idempotent stateKeyFields [("06", stateRecSample)] overlayTableSample
    (by decide) (by decide) "06" "MEDIAN_SALE_PRICE"

/-! ## Hex formatting lemmas -/

lemma hexLE_eq_digits : ∀ (fuel n : ℕ), n ≤ fuel → hexLE fuel n = Nat.digits 16 n := by
  intro fuel
  induction fuel with
  | zero =>
    intro n hn
    interval_cases n
    simp [hexLE]
  | succ f ih =>
    intro n hn
    match n with
    | 0 => simp [hexLE]
    | m + 1 =>
      rw [hexLE, ih ((m + 1) / 16) (by
        have := Nat.div_lt_self (Nat.succ_pos m) (by norm_num : 1 < 16)
        omega)]
      rw [Nat.digits_def' (by norm_num : (1:ℕ) < 16) (Nat.succ_pos m)]

lemma hexDigitsNat_eq_digits (n : ℕ) : hexDigitsNat n = Nat.digits 16 n :=
  hexLE_eq_digits n n le_rfl

lemma ofDigits_replicate_zero (k : ℕ) : Nat.ofDigits 16 (List.replicate k 0) = 0 := by
  induction k with
  | zero => rfl
  | succ m ih => simp [List.replicate_succ, Nat.ofDigits_cons, ih]

lemma digits_length_le {m : ℕ} (hm : m < 16 ^ 6) : (Nat.digits 16 m).length ≤ 6 := by
  rcases Nat.eq_zero_or_pos m with h0 | hpos
  · subst h0
    simp
  · rw [Nat.digits_len 16 m (by norm_num) (Nat.pos_iff_ne_zero.mp hpos)]
    have := Nat.log_lt_of_lt_pow (Nat.pos_iff_ne_zero.mp hpos) hm
    omega

lemma digits_pow_six_add {m : ℕ} (hm : m < 16 ^ 6) :
    Nat.digits 16 (16 ^ 6 + m) =
      (Nat.digits 16 m ++ List.replicate (6 - (Nat.digits 16 m).length) 0) ++ [1] := by
  have hle := digits_length_le hm
  have hlen : (Nat.digits 16 m ++ List.replicate (6 - (Nat.digits 16 m).length) 0).length = 6 := by
    simp only [List.length_append, List.length_replicate]
    omega
  have hof : Nat.ofDigits 16
      ((Nat.digits 16 m ++ List.replicate (6 - (Nat.digits 16 m).length) 0) ++ [1]) =
      16 ^ 6 + m := by
    rw [Nat.ofDigits_append, Nat.ofDigits_append, Nat.ofDigits_digits,
      ofDigits_replicate_zero, hlen]
    simp [Nat.ofDigits_cons, Nat.ofDigits_nil]
    ring
  have hdl : ∀ d ∈ (Nat.digits 16 m ++ List.replicate (6 - (Nat.digits 16 m).length) 0) ++ [1],
      d < 16 := by
    intro d hd
    rcases List.mem_append.mp hd with hd | hd
    · rcases List.mem_append.mp hd with hd | hd
      · exact Nat.digits_lt_base (by norm_num) hd
      · rw [List.eq_of_mem_replicate hd]
        norm_num
    · rw [List.mem_singleton.mp hd]
      norm_num
  have hlast : ∀ h : (Nat.digits 16 m ++ List.replicate (6 - (Nat.digits 16 m).length) 0) ++ [1] ≠ [],
      ((Nat.digits 16 m ++ List.replicate (6 - (Nat.digits 16 m).length) 0) ++ [1]).getLast h ≠ 0 := by
    intro h
    rw [List.getLast_concat]
    norm_num
  calc Nat.digits 16 (16 ^ 6 + m)
      = Nat.digits 16 (Nat.ofDigits 16
          ((Nat.digits 16 m ++ List.replicate (6 - (Nat.digits 16 m).length) 0) ++ [1])) := by
        rw [hof]
    _ = (Nat.digits 16 m ++ List.replicate (6 - (Nat.digits 16 m).length) 0) ++ [1] :=
        Nat.digits_ofDigits 16 (by norm_num) _ hdl hlast

lemma natToHex_pow_six {m : ℕ} (hm : m < 16 ^ 6) :
    (natToHex (16 ^ 6 + m)).data =
      '1' :: ((Nat.digits 16 m ++
        List.replicate (6 - (Nat.digits 16 m).length) 0).map hexChar).reverse := by
  unfold natToHex
  rw [if_neg (by omega)]
  rw [hexDigitsNat_eq_digits, digits_pow_six_add hm]
  have h1 : hexChar 1 = '1' := by decide
  rw [List.map_append, List.reverse_append]
  simp [h1]

lemma hexDigitVal_hexChar : ∀ d, d < 16 → hexDigitVal (hexChar d) = some d := by decide

lemma parseHexAux_map_hexChar : ∀ (ds : List ℕ) (a : ℕ), (∀ d ∈ ds, d < 16) →
    parseHexAux (ds.map hexChar) a = ds.foldl (fun acc d => acc * 16 + d) a := by
  intro ds
  induction ds with
  | nil => intro a _; rfl
  | cons d t ih =>
    intro a hd
    have h1 : hexDigitVal (hexChar d) = some d := hexDigitVal_hexChar d (hd d (List.mem_cons_self d t))
    simp only [List.map_cons, parseHexAux, h1, List.foldl_cons]
    exact ih (a * 16 + d) (fun x hx => hd x (List.mem_cons_of_mem d hx))

lemma foldl_reverse_ofDigits : ∀ (L : List ℕ) (a : ℕ),
    L.reverse.foldl (fun acc d => acc * 16 + d) a = a * 16 ^ L.length + Nat.ofDigits 16 L := by
  intro L
  induction L with
  | nil => intro a; simp
  | cons d t ih =>
    intro a
    rw [List.reverse_cons, List.foldl_append]
    simp only [List.foldl_cons, List.foldl_nil]
    rw [ih a, Nat.ofDigits_cons, List.length_cons]
    ring

lemma parse_slice_canon {m : ℕ} (hm : m < 16 ^ 6) :
    parseHexAux ((natToHex (16 ^ 6 + m)).data.drop 1) 0 = m ∧
    ((natToHex (16 ^ 6 + m)).data.drop 1).length = 6 := by
  rw [natToHex_pow_six hm]
  simp only [List.drop_succ_cons, List.drop_zero]
  have hdl : ∀ d ∈ Nat.digits 16 m ++ List.replicate (6 - (Nat.digits 16 m).length) 0,
      d < 16 := by
    intro d hd
    rcases List.mem_append.mp hd with hd | hd
    · exact Nat.digits_lt_base (by norm_num) hd
    · rw [List.eq_of_mem_replicate hd]
      norm_num
  have hlen : (Nat.digits 16 m ++ List.replicate (6 - (Nat.digits 16 m).length) 0).length = 6 := by
    have := digits_length_le hm
    simp only [List.length_append, List.length_replicate]
    omega
  constructor
  · rw [← List.map_reverse]
    rw [parseHexAux_map_hexChar _ 0 (fun d hd => hdl d (List.mem_reverse.mp hd))]
    rw [foldl_reverse_ofDigits]
    rw [Nat.ofDigits_append, Nat.ofDigits_digits, ofDigits_replicate_zero]
    simp
  · rw [List.length_reverse, List.length_map, hlen]

lemma canonColor_eq_natToHex (R G B : ℕ) :
    canonColor (R : ℤ) (G : ℤ) (B : ℤ) =
      String.mk ('#' :: (natToHex (16 ^ 6 + (R * 65536 + G * 256 + B))).data.drop 1) := by
  unfold canonColor intToHex
  rw [if_neg (not_lt.mpr (by positivity))]
  have hcast : (16777216 + (R : ℤ) * 65536 + (G : ℤ) * 256 + (B : ℤ)).natAbs =
      16 ^ 6 + (R * 65536 + G * 256 + B) := by
    have h : (16777216 + (R : ℤ) * 65536 + (G : ℤ) * 256 + (B : ℤ)) =
        ((16 ^ 6 + (R * 65536 + G * 256 + B) : ℕ) : ℤ) := by
      push_cast
      ring
    rw [h, Int.natAbs_ofNat]
  rw [hcast]

lemma parseIntHex_canonColor (R G B : ℕ) (hR : R < 256) (hG : G < 256) (hB : B < 256) :
    parseIntHex (slice1 (canonColor (R : ℤ) (G : ℤ) (B : ℤ))) = R * 65536 + G * 256 + B := by
  rw [canonColor_eq_natToHex]
  show parseHexAux (('#' :: (natToHex (16 ^ 6 + (R * 65536 + G * 256 + B))).data.drop 1).drop 1) 0 = _
  simp only [List.drop_succ_cons, List.drop_zero]
  exact (parse_slice_canon (by omega)).1

lemma land_255_eq_mod (x : ℕ) : x &&& 255 = x % 256 := by
  have h := Nat.and_pow_two_sub_one_eq_mod x 8
  norm_num at h
  exact h

lemma channels_unpack (R G B : ℕ) (hR : R < 256) (hG : G < 256) (hB : B < 256) :
    ((R * 65536 + G * 256 + B) >>> 16) &&& 255 = R ∧
    ((R * 65536 + G * 256 + B) >>> 8) &&& 255 = G ∧
    (R * 65536 + G * 256 + B) &&& 255 = B := by
  simp only [Nat.shiftRight_eq_div_pow, land_255_eq_mod]
  norm_num
  omega

lemma round_le_round {x y : ℚ} (h : x ≤ y) : round x ≤ round y := by
  rw [round_eq, round_eq]
  exact Int.floor_mono (by linarith)

lemma round_interp_bounds {c1 c2 : ℕ} (h1 : c1 < 256) (h2 : c2 < 256) {t : ℚ}
    (ht0 : 0 ≤ t) (ht1 : t ≤ 1) :
    0 ≤ interpChannel c1 c2 t ∧ interpChannel c1 c2 t < 256 := by
  unfold interpChannel
  have hc1 : (0 : ℚ) ≤ (c1 : ℚ) := Nat.cast_nonneg c1
  have hc2 : (0 : ℚ) ≤ (c2 : ℚ) := Nat.cast_nonneg c2
  have hc1' : (c1 : ℚ) ≤ 255 := by
    have : c1 ≤ 255 := by omega
    exact_mod_cast this
  have hc2' : (c2 : ℚ) ≤ 255 := by
    have : c2 ≤ 255 := by omega
    exact_mod_cast this
  have hlow : (0 : ℚ) ≤ (c1 : ℚ) + t * ((c2 : ℚ) - c1) := by
    rcases le_total ((c1 : ℚ)) ((c2 : ℚ)) with h | h
    · nlinarith
    · nlinarith [mul_nonneg (sub_nonneg.mpr ht1) (sub_nonneg.mpr h)]
  have hhigh : (c1 : ℚ) + t * ((c2 : ℚ) - c1) ≤ 255 := by
    rcases le_total ((c1 : ℚ)) ((c2 : ℚ)) with h | h
    · nlinarith [mul_nonneg (sub_nonneg.mpr ht1) (sub_nonneg.mpr h)]
    · nlinarith
  constructor
  · have hr := round_le_round hlow
    simpa using hr
  · have hr := round_le_round hhigh
    have h255 : round (255 : ℚ) = 255 := by
      rw [show (255 : ℚ) = ((255 : ℕ) : ℚ) by norm_num, round_natCast]
      norm_num
    omega

lemma interpolateColor_canon (R1 G1 B1 R2 G2 B2 : ℕ) (t : ℚ)
    (h1 : R1 < 256) (h2 : G1 < 256) (h3 : B1 < 256)
    (h4 : R2 < 256) (h5 : G2 < 256) (h6 : B2 < 256) :
    interpolateColor (canonColor R1 G1 B1) (canonColor R2 G2 B2) t =
      canonColor (interpChannel R1 R2 t) (interpChannel G1 G2 t) (interpChannel B1 B2 t) := by
  unfold interpolateColor
  rw [parseIntHex_canonColor R1 G1 B1 h1 h2 h3, parseIntHex_canonColor R2 G2 B2 h4 h5 h6]
  rw [(channels_unpack R1 G1 B1 h1 h2 h3).1, (channels_unpack R1 G1 B1 h1 h2 h3).2.1,
    (channels_unpack R1 G1 B1 h1 h2 h3).2.2, (channels_unpack R2 G2 B2 h4 h5 h6).1,
    (channels_unpack R2 G2 B2 h4 h5 h6).2.1, (channels_unpack R2 G2 B2 h4 h5 h6).2.2]
  rfl

lemma canonColor_shape {r g b : ℤ} (hr0 : 0 ≤ r) (hr : r < 256) (hg0 : 0 ≤ g) (hg : g < 256)
    (hb0 : 0 ≤ b) (hb : b < 256) :
    (canonColor r g b).data.length = 7 ∧ (canonColor r g b).data.headD ' ' = '#' ∧
    ∀ c ∈ (canonColor r g b).data.drop 1, (hexDigitVal c).isSome := by
  lift r to ℕ using hr0 with R
  lift g to ℕ using hg0 with G
  lift b to ℕ using hb0 with B
  have hR : R < 256 := by exact_mod_cast hr
  have hG : G < 256 := by exact_mod_cast hg
  have hB : B < 256 := by exact_mod_cast hb
  have hm : R * 65536 + G * 256 + B < 16 ^ 6 := by omega
  rw [canonColor_eq_natToHex]
  refine ⟨?_, rfl, ?_⟩
  · show ('#' :: (natToHex (16 ^ 6 + (R * 65536 + G * 256 + B))).data.drop 1).length = 7
    rw [List.length_cons, (parse_slice_canon hm).2]
  · intro c hc
    simp only [List.drop_succ_cons, List.drop_zero] at hc
    rw [natToHex_pow_six hm] at hc
    simp only [List.drop_succ_cons, List.drop_zero] at hc
    rcases List.mem_map.mp (List.mem_reverse.mp hc) with ⟨d, hd, rfl⟩
    have hd16 : d < 16 := by
      rcases List.mem_append.mp hd with hd | hd
      · exact Nat.digits_lt_base (by norm_num) hd
      · rw [List.eq_of_mem_replicate hd]
        norm_num
    rw [hexDigitVal_hexChar d hd16]
    rfl

/-! ## Claims C3 and C7 -/

lemma getColorForValue_interp (cs : ColorSettings) {l : List ℚ} {mn mx : ℚ} (v : ℚ)
    (hb : boundsOf l = (mn, mx)) (hlt : mn < mx) :
    getColorForValue cs (some v) l =
      interpolateColor cs.choroLow cs.choroHigh ((v - mn) / (mx - mn)) := by
  have hne : l ≠ [] := by
    intro h0
    subst h0
    rw [show boundsOf [] = (0, 0) from rfl] at hb
    rw [Prod.mk.injEq] at hb
    rw [← hb.1, ← hb.2] at hlt
    exact absurd hlt (lt_irrefl 0)
  simp only [getColorForValue, hb]
  rw [if_neg (fun h0 => hne (List.length_eq_zero.mp h0)), if_neg hlt.ne']

/-- C3, amended: for bounds with `min < max` and a value inside the
bounds, the color mapper returns the channel-wise rounded linear
interpolation at `t = (value - min) / (max - min)` (which equals its own
clamp for in-range values), emitted as a 6-hex-digit color string.  The
code performs no clamping, however: a value outside the bounds
extrapolates instead of mapping to the endpoint color (see the
counterexample). -/
theorem c3_linear_interpolation (cs : ColorSettings) (l : List ℚ) (mn mx v : ℚ)
    (R1 G1 B1 R2 G2 B2 : ℕ)
    (h1 : R1 < 256) (h2 : G1 < 256) (h3 : B1 < 256)
    (h4 : R2 < 256) (h5 : G2 < 256) (h6 : B2 < 256)
    (hc1 : cs.choroLow = canonColor R1 G1 B1) (hc2 : cs.choroHigh = canonColor R2 G2 B2)
    (hb : boundsOf l = (mn, mx)) (hlt : mn < mx) (hv0 : mn ≤ v) (hv1 : v ≤ mx) :
    getColorForValue cs (some v) l =
      canonColor (interpChannel R1 R2 ((v - mn) / (mx - mn)))
        (interpChannel G1 G2 ((v - mn) / (mx - mn)))
        (interpChannel B1 B2 ((v - mn) / (mx - mn))) ∧
    (v - mn) / (mx - mn) = max 0 (min 1 ((v - mn) / (mx - mn))) ∧
    (getColorForValue cs (some v) l).data.length = 7 ∧
    (getColorForValue cs (some v) l).data.headD ' ' = '#' ∧
    ∀ ch ∈ (getColorForValue cs (some v) l).data.drop 1, (hexDigitVal ch).isSome := by
  have ht0 : 0 ≤ (v - mn) / (mx - mn) := div_nonneg (by linarith) (by linarith)
  have ht1 : (v - mn) / (mx - mn) ≤ 1 := by
    rw [div_le_one (by linarith)]
    linarith
  have heq : getColorForValue cs (some v) l =
      canonColor (interpChannel R1 R2 ((v - mn) / (mx - mn)))
        (interpChannel G1 G2 ((v - mn) / (mx - mn)))
        (interpChannel B1 B2 ((v - mn) / (mx - mn))) := by
    rw [getColorForValue_interp cs v hb hlt, hc1, hc2,
      interpolateColor_canon R1 G1 B1 R2 G2 B2 _ h1 h2 h3 h4 h5 h6]
  have hRb := round_interp_bounds h1 h4 ht0 ht1
  have hGb := round_interp_bounds h2 h5 ht0 ht1
  have hBb := round_interp_bounds h3 h6 ht0 ht1
  have hshape := canonColor_shape hRb.1 hRb.2 hGb.1 hGb.2 hBb.1 hBb.2
  refine ⟨heq, ?_, ?_, ?_, ?_⟩
  · rw [min_eq_right ht1, max_eq_right ht0]
  · rw [heq]
    exact hshape.1
  · rw [heq]
    exact hshape.2.1
  · rw [heq]
    exact hshape.2.2

/-- C3 witness: the in-range value 15 of the list `[10, 20]` receives the
interpolation at `t = 1/2`. -/
theorem c3_linear_interpolation_witness :
    getColorForValue colorSettings (some 15) [10, 20] =
      canonColor (interpChannel 239 8 ((15 - 10) / (20 - 10)))
        (interpChannel 243 81 ((15 - 10) / (20 - 10)))
        (interpChannel 255 156 ((15 - 10) / (20 - 10))) :=
  (c3_linear_interpolation colorSettings [10, 20] 10 20 15 239 243 255 8 81 156
    (by decide) (by decide) (by decide) (by decide) (by decide) (by decide)
    (by decide) (by decide) (by decide) (by decide) (by decide) (by decide)).1

/-- C3 counterexample: the claim's clamp does not happen.  For the value
0, below the bounds `(10, 20)` of `[10, 20]`, the mapper extrapolates to
`#d79662` instead of returning the low endpoint color `#eff3ff`. -/
theorem c3_no_clamp_below_min :
    getColorForValue colorSettings (some 0) [10, 20] = "#d79662" ∧
    getColorForValue colorSettings (some 0) [10, 20] ≠ colorSettings.choroLow := by decide

/-- C7: color round-trip at the bounds.  For any canonically formatted
gradient and any value list whose computed bounds are `(mn, mx)` with
`mn < mx`, `colorFor(mn)` is exactly the low endpoint color and
`colorFor(mx)` exactly the high endpoint color; and in the end-to-end
scenario over `stateDataEx` the bounds are `(30000000, 39000000)`, region
`"06"` gets exactly `#08519c` and region `"48"` exactly `#eff3ff`. -/
theorem c7_endpoint_roundtrip (cs : ColorSettings) (l : List ℚ) (mn mx : ℚ)
    (R1 G1 B1 R2 G2 B2 : ℕ)
    (h1 : R1 < 256) (h2 : G1 < 256) (h3 : B1 < 256)
    (h4 : R2 < 256) (h5 : G2 < 256) (h6 : B2 < 256)
    (hc1 : cs.choroLow = canonColor R1 G1 B1) (hc2 : cs.choroHigh = canonColor R2 G2 B2)
    (hb : boundsOf l = (mn, mx)) (hlt : mn < mx) :
    getColorForValue cs (some mn) l = cs.choroLow ∧
    getColorForValue cs (some mx) l = cs.choroHigh ∧
    boundsOf (metricValues stateDataEx "totalPopulation") = (30000000, 39000000) ∧
    regionColor colorSettings stateDataEx "totalPopulation" "06" = "#08519c" ∧
    regionColor colorSettings stateDataEx "totalPopulation" "48" = "#eff3ff" := by
  refine ⟨?_, ?_, by decide, by decide, by decide⟩
  · rw [getColorForValue_interp cs mn hb hlt, hc1, hc2,
      interpolateColor_canon R1 G1 B1 R2 G2 B2 _ h1 h2 h3 h4 h5 h6]
    have h0 : (mn - mn) / (mx - mn) = 0 := by rw [sub_self, zero_div]
    rw [h0]
    unfold interpChannel
    simp [round_natCast]
  · rw [getColorForValue_interp cs mx hb hlt, hc1, hc2,
      interpolateColor_canon R1 G1 B1 R2 G2 B2 _ h1 h2 h3 h4 h5 h6]
    have h0 : (mx - mn) / (mx - mn) = 1 := div_self (sub_ne_zero.mpr hlt.ne')
    rw [h0]
    unfold interpChannel
    have he : ∀ a b : ℚ, a + 1 * (b - a) = b := by
      intro a b
      ring
    simp [he, round_natCast]

/-- C7 witness: the scenario value list `[39000000, 30000000]` with the
default gradient takes the exact endpoint colors at its bounds. -/
theorem c7_endpoint_roundtrip_witness :
    getColorForValue colorSettings (some 30000000) [39000000, 30000000] =
      colorSettings.choroLow ∧
    getColorForValue colorSettings (some 39000000) [39000000, 30000000] =
      colorSettings.choroHigh :=
  ⟨(c7_endpoint_roundtrip colorSettings [39000000, 30000000] 30000000 39000000
      239 243 255 8 81 156 (by decide) (by decide) (by decide) (by decide) (by decide)
      (by decide) (by decide) (by decide) (by decide) (by decide)).1,
   (c7_endpoint_roundtrip colorSettings [39000000, 30000000] 30000000 39000000
      239 243 255 8 81 156 (by decide) (by decide) (by decide) (by decide) (by decide)
      (by decide) (by decide) (by decide) (by decide) (by decide)).2.1⟩

/-! ## Claim C4 -/

lemma foldl_ite_filter {α β : Type _} (p : α → Bool) (f : β → α → β) :
    ∀ (l : List α) (b : β),
      l.foldl (fun acc x => if p x then f acc x else acc) b = (l.filter p).foldl f b := by
  intro l
  induction l with
  | nil => intro b; rfl
  | cons x t ih =>
    intro b
    by_cases hp : p x = true
    · rw [List.filter_cons_of_pos hp, List.foldl_cons, List.foldl_cons, if_pos hp, ih]
    · rw [List.filter_cons_of_neg (by simpa using hp), List.foldl_cons, if_neg hp, ih]

/-- C4, amended: the rows an overlay loader retains for joining are
exactly those whose `PERIOD_END` strictly equals the most recent period
over ALL rows of the source (regardless of property type), whose
`PROPERTY_TYPE` is `'All Residential'`, and whose key field is truthy;
every other row is discarded before joining.  The latest period is not
computed per category of interest (see the counterexample). -/
theorem c4_snapshot_selection (rows : List JRec) (keyField : String) :
    buildOverlayTable rows keyField =
      (rows.filter (retainRow (latestPeriod rows) keyField)).foldl
        (fun tbl row => insertKeyed tbl (jsString ((getF row keyField).getD .null)) row) [] := by
  unfold buildOverlayTable
  exact foldl_ite_filter _ _ rows []

/-- An overlay source whose globally most recent period (`2025-07-01`)
has only a `Condo` row, while the most recent `All Residential` row is
from `2025-06-01`. -/
def overlayRowsSample : List JRec :=
  [[("PERIOD_END", .str "2025-07-01"), ("PROPERTY_TYPE", .str "Condo"),
    ("STATE_CODE", .str "CA"), ("MEDIAN_SALE_PRICE", .num 900000)],
   [("PERIOD_END", .str "2025-06-01"), ("PROPERTY_TYPE", .str "All Residential"),
    ("STATE_CODE", .str "CA"), ("MEDIAN_SALE_PRICE", .num 800000)]]

/-- C4 counterexample: on `overlayRowsSample` the code retains no row at
all (its latest period is taken over every category), while the claim's
selection — most recent period for the category of interest — retains the
`All Residential` row of `2025-06-01`.  So the retained set is not the one
the claim describes. -/
theorem c4_latest_not_per_category :
    buildOverlayTable overlayRowsSample "STATE_CODE" = [] ∧
    overlayRowsSample.filter (specRetainRow overlayRowsSample "STATE_CODE") =
      [[("PERIOD_END", .str "2025-06-01"), ("PROPERTY_TYPE", .str "All Residential"),
        ("STATE_CODE", .str "CA"), ("MEDIAN_SALE_PRICE", .num 800000)]] := by decide

/-! ## Claim C8 -/

lemma padStart_idem (s : String) (w : ℕ) (c : Char) :
    padStart (padStart s w c) w c = padStart s w c := by
  unfold padStart
  have h : w - (List.replicate (w - s.data.length) c ++ s.data).length = 0 := by
    simp only [List.length_append, List.length_replicate]
    omega
  show String.mk (List.replicate (w - (List.replicate (w - s.data.length) c ++ s.data).length) c ++
    (List.replicate (w - s.data.length) c ++ s.data)) = _
  rw [h, List.replicate_zero, List.nil_append]

lemma jsString_natCast (n : ℕ) : jsString (.num (n : ℚ)) = toString n := by
  simp only [jsString]
  rw [if_pos (Rat.den_natCast n), Rat.num_natCast]
  rfl

/-- C8: geo-key normalisation is representation independent.  A numeric
FIPS input and its decimal-string or zero-padded-string forms produce the
same canonical key at any width; in particular the number `6` and the
string `"06"` both normalise to `"06"` at state width 2, county inputs pad
to width 5 (`1001` to `"01001"`) and short ZIP forms pad to 5 characters
(`501` to `"00501"`). -/
theorem c8_geo_key_normalization (n w : ℕ) :
    normalizeGeoKey (.num (n : ℚ)) w = padStart (toString n) w '0' ∧
    normalizeGeoKey (.str (toString n)) w = normalizeGeoKey (.num (n : ℚ)) w ∧
    normalizeGeoKey (.str (normalizeGeoKey (.num (n : ℚ)) w)) w =
      normalizeGeoKey (.num (n : ℚ)) w ∧
    normalizeGeoKey (.num 6) 2 = "06" ∧ normalizeGeoKey (.str "06") 2 = "06" ∧
    normalizeGeoKey (.num 1001) 5 = "01001" ∧
    normalizeGeoKey (.num 501) 5 = "00501" ∧ normalizeGeoKey (.str "501") 5 = "00501" := by
  refine ⟨?_, ?_, ?_, by decide, by decide, by decide, by decide, by decide⟩
  · unfold normalizeGeoKey
    rw [jsString_natCast]
  · unfold normalizeGeoKey
    rw [jsString_natCast]
    rfl
  · unfold normalizeGeoKey
    rw [jsString_natCast]
    exact padStart_idem _ _ _

/-! ## Claim C9 -/

/-- C9 counterexample: when the boundary-geometry fetch fails, the load
handler's awaited chain ends in a rejection that nothing handles —
`loadGeoData`'s catch rethrows via `return Promise.reject(error)` and
`map.on('load')` has no try/catch — contradicting "never an unhandled
rejection". -/
theorem c9_geo_failure_unhandled :
    onMapLoadFlow ⟨false, true, true, true, true, true⟩ =
      Except.error "geo boundary fetch failed" := rfl

/-- C9, amended: baseline-economic and Redfin-overlay fetch failures are
all caught and degrade to showing less data (the load sequence still
resolves), and the baseline loader never rejects; only a failure of the
boundary-geometry fetches escapes as an unhandled rejection. -/
theorem c9_overlay_failures_degrade (env : FetchEnv) (hgeo : env.geoOk = true) :
    onMapLoadFlow env = Except.ok () ∧ loadEconomicDataFlow env = Except.ok () := by
  rcases env with ⟨g, e, z, s, c, b⟩
  cases hgeo
  cases e <;> cases z <;> cases s <;> cases c <;> cases b <;> exact ⟨rfl, rfl⟩

/-- C9 witness: with the geometry fetch succeeding and every baseline and
overlay fetch failing, the load sequence still resolves. -/
theorem c9_overlay_failures_degrade_witness :
    onMapLoadFlow ⟨true, false, false, false, false, false⟩ = Except.ok () ∧
    loadEconomicDataFlow ⟨true, false, false, false, false, false⟩ = Except.ok () :=
  c9_overlay_failures_degrade ⟨true, false, false, false, false, false⟩ rfl

end EconMap

